import Mathlib

/-!
Verification of the FB2-to-EPUB converter (packages `models` and `converter`
of the repository): a shallow embedding of the document model, the parser's
charset handling, the inline/section renderers, the navigation builder and
the package assembler, together with proofs about the claims of the spec.

Conventions of the embedding:
* byte strings are `List Nat` (each element < 256), text is `String`;
* the `zip.Writer` is modelled as the list of entries in physical write
  order, each entry carrying its name, compression method and payload;
* Go maps (`map[string]*ImageInfo`) are association lists with
  overwrite-on-insert; Go's unspecified iteration order means every
  order-sensitive statement about them is phrased order-independently;
* `uuid.New()` and `time.Now()` are per-run nondeterministic inputs of the
  generator and are therefore passed as explicit parameters.
-/

namespace Fb2Epub

/-- Decimal digit character for a value 0..9, as produced by Go `fmt` `%d`
formatting (only ever applied to `n % 10`). -/
def digitCh (k : Nat) : Char :=
  if k = 0 then '0' else if k = 1 then '1' else if k = 2 then '2'
  else if k = 3 then '3' else if k = 4 then '4' else if k = 5 then '5'
  else if k = 6 then '6' else if k = 7 then '7' else if k = 8 then '8'
  else '9'

/-- Fuel-driven digit accumulator: pushes the decimal digits of `n` in front
of `acc`, least significant digit first pushed.  The fuel `n + 1` used by
`natDec` always suffices. -/
def natDecAux : Nat → Nat → List Char → List Char
  | 0, _, acc => acc
  | fuel + 1, n, acc =>
    let d := digitCh (n % 10)
    if n / 10 = 0 then d :: acc else natDecAux fuel (n / 10) (d :: acc)

/-- Embedding of Go `fmt.Sprintf("%d", n)` for the non-negative integers the
converter formats (section indices, playOrder counters, depths, heading
levels). -/
def natDec (n : Nat) : String := ⟨natDecAux (n + 1) n []⟩

/-- Embedding of Go `html.EscapeString` on a single character: the five
replacements of `html`'s escaper (`&`, the apostrophe U+0027, `<`, `>`,
`"`); every other character is kept. -/
def escapeChar (c : Char) : String :=
  if c = '&' then "&amp;"
  else if c.toNat = 39 then "&#39;"
  else if c = '<' then "&lt;"
  else if c = '>' then "&gt;"
  else if c = '"' then "&#34;"
  else String.singleton c

/-- Embedding of Go `html.EscapeString`: all escape patterns are single
characters, so the one-pass `strings.Replacer` is the character-wise map. -/
def htmlEscapeString (s : String) : String :=
  String.join (s.data.map escapeChar)

/-- Embedding of Go `strings.Repeat s n`. -/
def strRepeat (s : String) : Nat → String
  | 0 => ""
  | n + 1 => s ++ strRepeat s n

/-- Embedding of Go `strings.Join l sep`. -/
def strJoin (sep : String) : List String → String
  | [] => ""
  | x :: rest => rest.foldl (fun acc y => acc ++ sep ++ y) x

/-- Substring test on character lists; embedding of Go `strings.Contains`
(an empty pattern is contained in every string). -/
def listContains : List Char → List Char → Bool
  | [], pat => pat.isPrefixOf ([] : List Char)
  | s@(_ :: rest), pat => pat.isPrefixOf s || listContains rest pat

/-- Embedding of Go `strings.Contains`. -/
def strContains (s pat : String) : Bool := listContains s.data pat.data

/-- Replace the first occurrence of `pat` by `rep`; embedding of Go
`strings.Replace(s, pat, rep, 1)` (an empty pattern matches at the front). -/
def listReplaceFirst : List Char → List Char → List Char → List Char
  | [], pat, rep => if pat.isEmpty then rep else []
  | c :: rest, pat, rep =>
    if pat.isPrefixOf (c :: rest) then rep ++ (c :: rest).drop pat.length
    else c :: listReplaceFirst rest pat rep

/-- Embedding of Go `strings.Replace(s, pat, rep, 1)`. -/
def strReplaceFirst (s pat rep : String) : String :=
  ⟨listReplaceFirst s.data pat.data rep.data⟩

/-- Embedding of Go `strings.TrimPrefix`. -/
def strTrimLeading (s pat : String) : String :=
  if pat.data.isPrefixOf s.data then ⟨s.data.drop pat.data.length⟩ else s

/-- Value of a standard base64 alphabet character, as in Go
`encoding/base64.StdEncoding`. -/
def b64Val (c : Char) : Option Nat :=
  if 65 ≤ c.toNat ∧ c.toNat ≤ 90 then some (c.toNat - 65)
  else if 97 ≤ c.toNat ∧ c.toNat ≤ 122 then some (c.toNat - 97 + 26)
  else if 48 ≤ c.toNat ∧ c.toNat ≤ 57 then some (c.toNat - 48 + 52)
  else if c = '+' then some 62
  else if c = '/' then some 63
  else none

/-- Quadruple-wise base64 decoding with `=` padding allowed only in the last
quadruple; embedding of the grouping logic of Go
`base64.StdEncoding.DecodeString` (the default, non-strict decoder, which
does not check unused trailing bits). -/
def b64Groups : List Char → Option (List Nat)
  | [] => some []
  | a :: b :: c :: d :: rest =>
    match b64Val a, b64Val b with
    | some va, some vb =>
      if c = '=' then
        if d = '=' ∧ rest.isEmpty then some [va * 4 + vb / 16] else none
      else
        match b64Val c with
        | some vc =>
          if d = '=' then
            if rest.isEmpty then some [va * 4 + vb / 16, vb % 16 * 16 + vc / 4]
            else none
          else
            match b64Val d with
            | some vd =>
              match b64Groups rest with
              | some tl =>
                some ((va * 4 + vb / 16) :: (vb % 16 * 16 + vc / 4) ::
                      (vc % 4 * 64 + vd) :: tl)
              | none => none
            | none => none
        | none => none
    | _, _ => none
  | _ => none

/-- Embedding of Go `base64.StdEncoding.DecodeString`: carriage returns and
newlines are skipped, everything else must form padded quadruples. -/
def base64Decode (s : String) : Option (List Nat) :=
  b64Groups (s.data.filter (fun ch => ch.toNat != 13 && ch.toNat != 10))

/-! The document model, from `models/fb2.go`: one Lean structure per Go
struct, fields in source order.  `Strong` and `Emphasis` are the two
mutually recursive inline-span types. -/

/-- Go `models.Author`. -/
structure Author where
  firstName : String
  middleName : String
  lastName : String
  nickname : String
deriving DecidableEq

/-- Go `models.Link` (`href`, `type` attribute, chardata text). -/
structure Link where
  href : String
  type : String
  text : String
deriving DecidableEq

/-- Go `models.Image`: an inline image reference (xlink href). -/
structure Image where
  href : String
deriving DecidableEq

mutual
/-- Go `models.Strong`: bold text with nested strong/emphasis/link spans. -/
inductive Strong where
  | mk : String → List Strong → List Emphasis → List Link → Strong
/-- Go `models.Emphasis`: italic text with nested strong/emphasis/link
spans. -/
inductive Emphasis where
  | mk : String → List Strong → List Emphasis → List Link → Emphasis
end

def Strong.text : Strong → String
  | .mk t _ _ _ => t

def Strong.strong : Strong → List Strong
  | .mk _ s _ _ => s

def Strong.emphasis : Strong → List Emphasis
  | .mk _ _ e _ => e

def Strong.link : Strong → List Link
  | .mk _ _ _ l => l

def Emphasis.text : Emphasis → String
  | .mk t _ _ _ => t

def Emphasis.strong : Emphasis → List Strong
  | .mk _ s _ _ => s

def Emphasis.emphasis : Emphasis → List Emphasis
  | .mk _ _ e _ => e

def Emphasis.link : Emphasis → List Link
  | .mk _ _ _ l => l

/-- Go `models.Paragraph`: chardata text plus the separately collected
inline spans (the XML unmarshaller does not preserve mixed-content
order). -/
structure Paragraph where
  text : String
  strong : List Strong
  emphasis : List Emphasis
  image : List Image
  link : List Link

/-- Go `models.Title`: a list of paragraph blocks. -/
structure Title where
  paragraph : List Paragraph

/-- Go `models.Verse`. -/
structure Verse where
  text : String

/-- Go `models.Stanza`. -/
structure Stanza where
  verse : List Verse

/-- Go `models.Poem`. -/
structure Poem where
  title : Option Title
  stanza : List Stanza
  date : String
  textAuthor : List Author

/-- Go `models.Cite`. -/
structure Cite where
  textAuthor : List Author
  paragraph : List Paragraph

/-- Go `models.Section`: optional title, nested sections (Go field
`Section`, here `sections` because `section` is a Lean keyword), paragraphs,
poems, citations, and the number of `empty-line` markers (Go keeps a
`[]EmptyLine` of empty structs; only its length is ever used). -/
inductive Section where
  | mk : Option Title → List Section → List Paragraph → List Poem →
         List Cite → Nat → Section

def Section.title : Section → Option Title
  | .mk t _ _ _ _ _ => t

def Section.sections : Section → List Section
  | .mk _ s _ _ _ _ => s

def Section.paragraph : Section → List Paragraph
  | .mk _ _ p _ _ _ => p

def Section.poem : Section → List Poem
  | .mk _ _ _ p _ _ => p

def Section.cite : Section → List Cite
  | .mk _ _ _ _ c _ => c

def Section.emptyLine : Section → Nat
  | .mk _ _ _ _ _ n => n

/-- Go `models.Body` (Go field `Section`, here `sections`). -/
structure Body where
  name : String
  title : Title
  sections : List Section

/-- Go `models.Binary`: a base64-encoded embedded resource. -/
structure Binary where
  id : String
  contentType : String
  data : String

/-- Go `models.TitleInfo`. -/
structure TitleInfo where
  genre : List String
  author : List Author
  bookTitle : String
  annotation : String
  date : String
  lang : String

/-- Go `models.PublishInfo` (read by no converter function). -/
structure PublishInfo where
  bookName : String
  publisher : String
  city : String
  year : String
  isbn : String

/-- Go `models.DocumentInfo` (read by no converter function). -/
structure DocumentInfo where
  author : List Author
  programUsed : String
  date : String
  id : String
  version : String

/-- Go `models.Description`. -/
structure Description where
  titleInfo : TitleInfo
  publishInfo : PublishInfo
  documentInfo : DocumentInfo

/-- Go `models.FictionBook`: the root of the document model. -/
structure FictionBook where
  description : Description
  body : Body
  binary : List Binary

/-- Go `converter.ImageInfo` (epubgenerator.go): decoded image bytes plus
content type. -/
structure ImageInfo where
  contentType : String
  data : List Nat
deriving DecidableEq

/-- The `map[string]*ImageInfo` image map, as an association list. -/
abbrev ImageMap := List (String × ImageInfo)

/-- Go map assignment `m[k] = v`: overwrite the binding if the key exists,
otherwise add it. -/
def mapInsert (m : ImageMap) (k : String) (v : ImageInfo) : ImageMap :=
  if m.any (fun kv => kv.1 == k) then
    m.map (fun kv => if kv.1 == k then (k, v) else kv)
  else m ++ [(k, v)]

/-- Go map lookup `m[k]` with its `exists` flag as an `Option`. -/
def lookupImage (m : ImageMap) (k : String) : Option ImageInfo :=
  match m.find? (fun kv => kv.1 == k) with
  | some kv => some kv.2
  | none => none

/-- Embedding of `collectImages` (epubgenerator.go): decode every binary
resource, silently dropping the ones whose base64 payload fails to decode;
later binaries with the same id overwrite earlier ones. -/
def collectImages (fb2 : FictionBook) : ImageMap :=
  fb2.binary.foldl (fun m b =>
    match base64Decode b.data with
    | none => m
    | some d => mapInsert m b.id ⟨b.contentType, d⟩) []

/-- Embedding of `getImageExtension` (epubgenerator.go). -/
def getImageExtension (contentType : String) : String :=
  if contentType = "image/jpeg" ∨ contentType = "image/jpg" then ".jpg"
  else if contentType = "image/png" then ".png"
  else if contentType = "image/gif" then ".gif"
  else if contentType = "image/webp" then ".webp"
  else if contentType = "image/svg+xml" then ".svg"
  else ".jpg"

/-- Embedding of `buildAuthorName` (epubgenerator.go): space-joined
non-empty name parts, falling back to the nickname when all three parts are
empty. -/
def buildAuthorName (author : Author) : String :=
  let parts :=
    (if author.firstName ≠ "" then [author.firstName] else []) ++
    (if author.middleName ≠ "" then [author.middleName] else []) ++
    (if author.lastName ≠ "" then [author.lastName] else [])
  if parts.isEmpty ∧ author.nickname ≠ "" then author.nickname
  else strJoin " " parts

/-! The inline markup renderer, from epubgenerator.go.  Each Go `for` loop
over a span list that mutates the accumulating string becomes a
tail-recursive loop function over the list with an explicit accumulator. -/

/-- Embedding of `processLink` (epubgenerator.go): escaped href and text,
with the href reused as display text when the text is empty.  The Go
function receives the image map but ignores it. -/
def processLink (l : Link) (_m : Option ImageMap) : String :=
  let href := htmlEscapeString l.href
  let text := htmlEscapeString l.text
  let text := if text = "" then href else text
  "<a href=\"" ++ href ++ "\">" ++ text ++ "</a>"

mutual
/-- Embedding of `extractStrongText` (epubgenerator.go): chardata, then link
texts, then emphasis texts, then nested strong texts. -/
def extractStrongText : Strong → String
  | .mk t ss es ls =>
    t ++ String.join (ls.map Link.text) ++ extractEmphasisTextList es ++
      extractStrongTextList ss

/-- Embedding of `extractEmphasisText` (epubgenerator.go): chardata, then
link texts, then strong texts, then nested emphasis texts. -/
def extractEmphasisText : Emphasis → String
  | .mk t ss es ls =>
    t ++ String.join (ls.map Link.text) ++ extractStrongTextList ss ++
      extractEmphasisTextList es

/-- The `for _, nestedStrong := range` loop of the extractors. -/
def extractStrongTextList : List Strong → String
  | [] => ""
  | s :: rest => extractStrongText s ++ extractStrongTextList rest

/-- The `for _, emphasis := range` loop of the extractors. -/
def extractEmphasisTextList : List Emphasis → String
  | [] => ""
  | e :: rest => extractEmphasisText e ++ extractEmphasisTextList rest
end

/-- The nested-link loop shared verbatim by `processStrong` and
`processEmphasis` (epubgenerator.go): when both the span's own
chardata and the link text are non-empty, substitute the escaped link text
by the rendered anchor (first occurrence) or append it space-separated;
otherwise append the anchor directly. -/
def fmtLinkLoop (ownText : String) (m : Option ImageMap) :
    List Link → String → String
  | [], acc => acc
  | link :: rest, acc =>
    let linkHTML := processLink link m
    let acc :=
      if ownText ≠ "" ∧ link.text ≠ "" then
        let escapedLinkText := htmlEscapeString link.text
        if strContains acc escapedLinkText then
          strReplaceFirst acc escapedLinkText linkHTML
        else acc ++ " " ++ linkHTML
      else acc ++ linkHTML
    fmtLinkLoop ownText m rest acc

mutual
/-- Embedding of `processStrong` (epubgenerator.go): escaped chardata, the
nested-link loop, then nested emphasis and nested strong renderings appended
in order, wrapped in `<strong>`. -/
def processStrong (s : Strong) (m : Option ImageMap) : String :=
  match s with
  | .mk t ss es ls =>
    let acc := htmlEscapeString t
    let acc := fmtLinkLoop t m ls acc
    let acc := emphasisAppendLoop m es acc
    let acc := strongAppendLoop m ss acc
    "<strong>" ++ acc ++ "</strong>"

/-- Embedding of `processEmphasis` (epubgenerator.go): escaped chardata, the
nested-link loop, then nested strong and nested emphasis renderings appended
in order, wrapped in `<em>`. -/
def processEmphasis (e : Emphasis) (m : Option ImageMap) : String :=
  match e with
  | .mk t ss es ls =>
    let acc := htmlEscapeString t
    let acc := fmtLinkLoop t m ls acc
    let acc := strongAppendLoop m ss acc
    let acc := emphasisAppendLoop m es acc
    "<em>" ++ acc ++ "</em>"

/-- The `for _, strong := range` append loop of the two span renderers. -/
def strongAppendLoop (m : Option ImageMap) :
    List Strong → String → String
  | [], acc => acc
  | s :: rest, acc => strongAppendLoop m rest (acc ++ processStrong s m)

/-- The `for _, emphasis := range` append loop of the two span renderers. -/
def emphasisAppendLoop (m : Option ImageMap) :
    List Emphasis → String → String
  | [], acc => acc
  | e :: rest, acc => emphasisAppendLoop m rest (acc ++ processEmphasis e m)
end

/-- The link loop of `processParagraph` (epubgenerator.go): substitution
keyed on the link text alone, with a space-separated append on every
fallback path. -/
def paraLinkLoop (m : Option ImageMap) : List Link → String → String
  | [], acc => acc
  | link :: rest, acc =>
    let linkHTML := processLink link m
    let acc :=
      if link.text ≠ "" then
        let escapedLinkText := htmlEscapeString link.text
        if strContains acc escapedLinkText then
          strReplaceFirst acc escapedLinkText linkHTML
        else acc ++ " " ++ linkHTML
      else acc ++ " " ++ linkHTML
    paraLinkLoop m rest acc

/-- The strong loop of `processParagraph` (epubgenerator.go): substitution
keyed on the extracted strong text, space-separated append on every fallback
path. -/
def paraStrongLoop (m : Option ImageMap) : List Strong → String → String
  | [], acc => acc
  | strong :: rest, acc =>
    let strongHTML := processStrong strong m
    let acc :=
      if strong.text ≠ "" ∨ strong.link ≠ [] then
        let strongText := extractStrongText strong
        if strongText ≠ "" then
          let escapedStrongText := htmlEscapeString strongText
          if strContains acc escapedStrongText then
            strReplaceFirst acc escapedStrongText strongHTML
          else acc ++ " " ++ strongHTML
        else acc ++ " " ++ strongHTML
      else acc ++ " " ++ strongHTML
    paraStrongLoop m rest acc

/-- The emphasis loop of `processParagraph` (epubgenerator.go). -/
def paraEmphasisLoop (m : Option ImageMap) :
    List Emphasis → String → String
  | [], acc => acc
  | emphasis :: rest, acc =>
    let emphasisHTML := processEmphasis emphasis m
    let acc :=
      if emphasis.text ≠ "" ∨ emphasis.link ≠ [] then
        let emphasisText := extractEmphasisText emphasis
        if emphasisText ≠ "" then
          let escapedEmphasisText := htmlEscapeString emphasisText
          if strContains acc escapedEmphasisText then
            strReplaceFirst acc escapedEmphasisText emphasisHTML
          else acc ++ " " ++ emphasisHTML
        else acc ++ " " ++ emphasisHTML
      else acc ++ " " ++ emphasisHTML
    paraEmphasisLoop m rest acc

/-- The image loop of `processParagraph` (epubgenerator.go): resolve the
resource id against the image map (falling back to a `.jpg` guess) and
append an inline `<img>` tag. -/
def paraImageLoop (m : Option ImageMap) : List Image → String → String
  | [], acc => acc
  | image :: rest, acc =>
    let href := htmlEscapeString image.href
    let imgID := strTrimLeading href "#"
    let imgPath :=
      match m with
      | some mm =>
        match lookupImage mm imgID with
        | some imgInfo =>
          "images/" ++ imgID ++ getImageExtension imgInfo.contentType
        | none => "images/" ++ imgID ++ ".jpg"
      | none => "images/" ++ imgID ++ ".jpg"
    paraImageLoop m rest
      (acc ++ " <img src=\"" ++ htmlEscapeString imgPath ++ "\" alt=\"\"/>")

/-- Embedding of `processParagraph` (epubgenerator.go): escaped base text,
then the link, strong, emphasis and image loops in that fixed order. -/
def processParagraph (p : Paragraph) (m : Option ImageMap) : String :=
  let acc := htmlEscapeString p.text
  let acc := paraLinkLoop m p.link acc
  let acc := paraStrongLoop m p.strong acc
  let acc := paraEmphasisLoop m p.emphasis acc
  paraImageLoop m p.image acc

/-- Embedding of `processPoem` (epubgenerator.go): poem wrapper with
optional `<h3>` title (escaped chardata only) and one stanza `<div>` per
stanza, one verse `<p>` per line. -/
def processPoem (poem : Poem) : String :=
  "<div class=\"poem\">\n" ++
  (match poem.title with
   | some t =>
     "<h3>" ++ String.join (t.paragraph.map (fun p => htmlEscapeString p.text)) ++
       "</h3>\n"
   | none => "") ++
  String.join (poem.stanza.map (fun stanza =>
    "<div class=\"stanza\">\n" ++
    String.join (stanza.verse.map (fun v =>
      "<p class=\"verse\">" ++ htmlEscapeString v.text ++ "</p>\n")) ++
    "</div>\n")) ++
  "</div>\n"

/-- Embedding of `processCite` (epubgenerator.go): blockquote of rendered
paragraphs (no empty-text filtering here). -/
def processCite (cite : Cite) (m : ImageMap) : String :=
  "<blockquote class=\"cite\">\n" ++
  String.join (cite.paragraph.map (fun p =>
    "<p>" ++ processParagraph p (some m) ++ "</p>\n")) ++
  "</blockquote>\n"

/-! The section renderer and navigation builder, from epubgenerator.go and
the nav document writer. -/

/-- The hierarchical section id, exactly as computed at the top of
`processSectionWithID` (epubgenerator.go lines 489–494) and by the
`fmt.Sprintf` calls of `buildTOC`/`buildTOCFromSection`: `section-<i>` for a
top-level section, parent id plus `-sub-<i>` below. -/
def goSectionID (parentID : String) (sectionIndex : Nat) : String :=
  if parentID ≠ "" then parentID ++ "-sub-" ++ natDec sectionIndex
  else "section-" ++ natDec sectionIndex

/-- The value interpolated into the `id="…"` attribute of a section heading
in content.xhtml: `safeID := html.EscapeString(sectionID)`
(epubgenerator.go line 506). -/
def contentHeadingIDAttr (sectionID : String) : String :=
  htmlEscapeString sectionID

mutual
/-- Embedding of `processSectionWithID` (epubgenerator.go): heading(s) for a
present non-empty title, then paragraphs (empty renderings skipped), empty
lines, nested sections, poems, citations, concatenated in that order. -/
def processSectionWithID (s : Section) (depth sectionIndex : Nat)
    (parentID : String) (m : ImageMap) : String :=
  match s with
  | .mk title sections paragraphs poems cites emptyLines =>
    let sectionID := goSectionID parentID sectionIndex
    let titlePart :=
      match title with
      | some t =>
        if t.paragraph.length > 0 then
          let level := if depth + 1 > 6 then 6 else depth + 1
          let tag := "h" ++ natDec level
          String.join (t.paragraph.map (fun p =>
            "<" ++ tag ++ " id=\"" ++ contentHeadingIDAttr sectionID ++
              "\">" ++ processParagraph p none ++ "</" ++ tag ++ ">\n"))
        else ""
      | none => ""
    let paras := String.join (paragraphs.map (fun p =>
      let text := processParagraph p (some m)
      if text ≠ "" then "<p>" ++ text ++ "</p>\n" else ""))
    let empties := strRepeat "<div class=\"empty-line\"></div>\n" emptyLines
    let subs := sectionChildrenLoop sections 0 (depth + 1) sectionID m
    let poemsStr := String.join (poems.map processPoem)
    let citesStr := String.join (cites.map (fun c => processCite c m))
    titlePart ++ paras ++ empties ++ subs ++ poemsStr ++ citesStr

/-- The `for i := range section.Section` loop of `processSectionWithID`,
threading the sibling index. -/
def sectionChildrenLoop : List Section → Nat → Nat → String → ImageMap →
    String
  | [], _, _, _, _ => ""
  | c :: rest, i, depth, parentID, m =>
    processSectionWithID c depth i parentID m ++
      sectionChildrenLoop rest (i + 1) depth parentID m
end

/-- Go `converter.TOCEntry`; the Go struct also carries a `PlayOrder int`
field that no code ever assigns (it stays at its zero value and is never
read), so it is omitted here. -/
inductive TOCEntry where
  | mk : String → String → List TOCEntry → TOCEntry

def TOCEntry.id : TOCEntry → String
  | .mk i _ _ => i

def TOCEntry.title : TOCEntry → String
  | .mk _ t _ => t

def TOCEntry.children : TOCEntry → List TOCEntry
  | .mk _ _ c => c

mutual
/-- Embedding of `buildTOCFromSection` (epubgenerator.go): a titled section
yields an entry with the space-joined title (re-labelled "Untitled Section"
when it joins to the empty string); an untitled section yields a title-less
pass-through entry when some descendant produced one, and nothing
otherwise. -/
def buildTOCFromSection (s : Section) (baseID : String) : Option TOCEntry :=
  match s with
  | .mk title sections _ _ _ _ =>
    match title with
    | none =>
      let children := buildTOCChildren sections baseID 0
      if children.isEmpty then none else some (.mk baseID "" children)
    | some t =>
      if t.paragraph.isEmpty then
        let children := buildTOCChildren sections baseID 0
        if children.isEmpty then none else some (.mk baseID "" children)
      else
        let titleParts := t.paragraph.filterMap (fun p =>
          let text := processParagraph p none
          if text ≠ "" then some text else none)
        let titleStr := strJoin " " titleParts
        let titleStr := if titleStr = "" then "Untitled Section" else titleStr
        some (.mk baseID titleStr (buildTOCChildren sections baseID 0))

/-- The `for i, subSection := range section.Section` loop of
`buildTOCFromSection`, appending `-sub-<i>` to the base id. -/
def buildTOCChildren : List Section → String → Nat → List TOCEntry
  | [], _, _ => []
  | c :: rest, baseID, i =>
    match buildTOCFromSection c (baseID ++ "-sub-" ++ natDec i) with
    | some child => child :: buildTOCChildren rest baseID (i + 1)
    | none => buildTOCChildren rest baseID (i + 1)
end

/-- The `for i, section := range fb2.Body.Section` loop of `buildTOC`
(epubgenerator.go), with base ids `section-<i>`. -/
def buildTOCTop : List Section → Nat → List TOCEntry
  | [], _ => []
  | s :: rest, i =>
    match buildTOCFromSection s ("section-" ++ natDec i) with
    | some e => e :: buildTOCTop rest (i + 1)
    | none => buildTOCTop rest (i + 1)

/-- Embedding of `buildTOC` (epubgenerator.go). -/
def buildTOC (fb2 : FictionBook) : List TOCEntry :=
  buildTOCTop fb2.body.sections 0

mutual
/-- The body of `calculateTOCDepth` (epubgenerator.go): fold over the
entries keeping the running maximum `maxDepth` (initially `currentDepth`),
recursing into children at `currentDepth + 1`. -/
def calcTOCDepthLoop : List TOCEntry → Nat → Nat → Nat
  | [], _, maxDepth => maxDepth
  | e :: rest, currentDepth, maxDepth =>
    let depth := calcTOCDepthEntry e currentDepth
    calcTOCDepthLoop rest currentDepth
      (if depth > maxDepth then depth else maxDepth)

/-- The per-entry recursive call
`calculateTOCDepth(entry.Children, currentDepth+1)`. -/
def calcTOCDepthEntry : TOCEntry → Nat → Nat
  | .mk _ _ cs, currentDepth =>
    calcTOCDepthLoop cs (currentDepth + 1) (currentDepth + 1)
end

/-- Embedding of `calculateTOCDepth` (epubgenerator.go). -/
def calculateTOCDepth (entries : List TOCEntry) (currentDepth : Nat) : Nat :=
  calcTOCDepthLoop entries currentDepth currentDepth

mutual
/-- Embedding of `writeTOCEntry` (epubgenerator.go): returns the navMap XML
this entry contributes together with the playOrder counter after it.  An
entry with neither title nor children writes nothing; a titled entry opens a
navPoint carrying the current playOrder and its id (the `content` src is
`content.xhtml#` plus the raw entry id), recurses into its children one
indent deeper, and closes; a title-less entry only recurses. -/
def writeTOCEntry (e : TOCEntry) (playOrder indent : Nat) : String × Nat :=
  match e with
  | .mk eid title children =>
    if title = "" ∧ children.isEmpty then ("", playOrder)
    else
      let indentStr := strRepeat "    " (indent + 2)
      if title ≠ "" then
        let escapedTitle := htmlEscapeString title
        let openStr :=
          indentStr ++ "<navPoint id=\"navpoint-" ++ eid ++
            "\" playOrder=\"" ++ natDec playOrder ++ "\">\n" ++
          indentStr ++ "  <navLabel>\n" ++
          indentStr ++ "    <text>" ++ escapedTitle ++ "</text>\n" ++
          indentStr ++ "  </navLabel>\n" ++
          indentStr ++ "  <content src=\"content.xhtml#" ++ eid ++ "\"/>\n"
        let res := writeTOCEntryList children (playOrder + 1) (indent + 1)
        (openStr ++ res.1 ++ indentStr ++ "</navPoint>\n", res.2)
      else
        writeTOCEntryList children playOrder indent

/-- The loops `for _, child := range entry.Children` /
`for _, entry := range tocEntries` around `writeTOCEntry`. -/
def writeTOCEntryList : List TOCEntry → Nat → Nat → String × Nat
  | [], k, _ => ("", k)
  | e :: rest, k, ind =>
    let r1 := writeTOCEntry e k ind
    let r2 := writeTOCEntryList rest r1.2 ind
    (r1.1 ++ r2.1, r2.2)
end

/-- One navPoint of the NCX navMap, in emission order: the same data
`writeTOCEntry` interpolates into its format string (`id` attribute,
playOrder, escaped label, `content` src). -/
structure NavPoint where
  id : String
  playOrder : Nat
  label : String
  src : String
deriving DecidableEq

mutual
/-- Structured view of `writeTOCEntry` (epubgenerator.go): the list of
navPoints the call emits, in order, with the playOrder counter after it.
It follows the recursion of `writeTOCEntry` exactly and abstracts only the
XML text around the interpolated values. -/
def writeTOCEntryPoints (e : TOCEntry) (playOrder : Nat) :
    List NavPoint × Nat :=
  match e with
  | .mk eid title children =>
    if title = "" ∧ children.isEmpty then ([], playOrder)
    else if title ≠ "" then
      let res := writeTOCEntryPointsList children (playOrder + 1)
      (⟨"navpoint-" ++ eid, playOrder, htmlEscapeString title,
        "content.xhtml#" ++ eid⟩ :: res.1, res.2)
    else
      writeTOCEntryPointsList children playOrder

/-- Structured view of the child/entry loops around `writeTOCEntry`. -/
def writeTOCEntryPointsList : List TOCEntry → Nat → List NavPoint × Nat
  | [], k => ([], k)
  | e :: rest, k =>
    let r1 := writeTOCEntryPoints e k
    let r2 := writeTOCEntryPointsList rest r1.2
    (r1.1 ++ r2.1, r2.2)
end

mutual
/-- Embedding of `writeNavEntry` (nav document writer): `<li>` anchor into
`content.xhtml#<escaped id>` for a titled entry, with a nested `<ol>` when
it has children; a title-less entry only recurses at the same indent; an
entry with neither writes nothing. -/
def writeNavEntry (e : TOCEntry) (indent : Nat) : String :=
  match e with
  | .mk eid title children =>
    if title = "" ∧ children.isEmpty then ""
    else
      let indentStr := strRepeat "      " (indent + 1)
      if title ≠ "" then
        let escapedID := htmlEscapeString eid
        let escapedTitle := htmlEscapeString title
        let openStr := indentStr ++ "<li><a href=\"content.xhtml#" ++
          escapedID ++ "\">" ++ escapedTitle ++ "</a>"
        if children.length > 0 then
          openStr ++ "\n" ++ indentStr ++ "  <ol>\n" ++
            writeNavEntryList children (indent + 1) ++
            indentStr ++ "  </ol>\n" ++ indentStr ++ "</li>\n"
        else openStr ++ "</li>\n"
      else writeNavEntryList children indent

/-- The loops around `writeNavEntry`. -/
def writeNavEntryList : List TOCEntry → Nat → String
  | [], _ => ""
  | e :: rest, ind => writeNavEntry e ind ++ writeNavEntryList rest ind
end

/-! The package assembler, from epubgenerator.go and the nav document
writer: the content of every archive entry and the entry sequence of
`GenerateEPUB`. -/

/-- The fixed cover/content navPoints `addTOCNCX` writes before the section
entries (same number interpolated as id suffix and playOrder). -/
def ncxFixedNavPoint (n : Nat) (label src : String) : String :=
  "    <navPoint id=\"navpoint-" ++ natDec n ++ "\" playOrder=\"" ++
    natDec n ++ "\">\n      <navLabel>\n        <text>" ++ label ++
    "</text>\n      </navLabel>\n      <content src=\"" ++ src ++
    "\"/>\n    </navPoint>\n"

/-- The number `addTOCNCX` interpolates into the `dtb:depth` meta element:
`calculateTOCDepth` of the TOC floored at 1, plus one (the format argument
is `maxDepth+1`, epubgenerator.go lines 217–221 and 265). -/
def ncxDtbDepth (fb2 : FictionBook) : Nat :=
  let maxDepth := calculateTOCDepth (buildTOC fb2) 0
  let maxDepth := if maxDepth < 1 then 1 else maxDepth
  maxDepth + 1

/-- Content of `OEBPS/toc.ncx`, from `addTOCNCX` (epubgenerator.go); `u` is
the `uuid.New()` draw of this run. -/
def tocNCXContent (fb2 : FictionBook) (u : String) : String :=
  let title := if fb2.description.titleInfo.bookTitle = "" then "Untitled"
    else fb2.description.titleInfo.bookTitle
  let uuid := "urn:uuid:" ++ u
  let tocEntries := buildTOC fb2
  let navMap := ncxFixedNavPoint 1 "Cover" "cover.xhtml" ++
    ncxFixedNavPoint 2 "Content" "content.xhtml" ++
    (writeTOCEntryList tocEntries 3 0).1
  "<?xml version=\"1.0\" encoding=\"UTF-8\"?>\n" ++
  "<ncx xmlns=\"http://www.daisy.org/z3986/2005/ncx/\" version=\"2005-1\">\n" ++
  "  <head>\n    <meta name=\"dtb:uid\" content=\"" ++ uuid ++ "\"/>\n" ++
  "    <meta name=\"dtb:depth\" content=\"" ++ natDec (ncxDtbDepth fb2) ++
  "\"/>\n    <meta name=\"dtb:totalPageCount\" content=\"0\"/>\n" ++
  "    <meta name=\"dtb:maxPageNumber\" content=\"0\"/>\n  </head>\n" ++
  "  <docTitle>\n    <text>" ++ htmlEscapeString title ++
  "</text>\n  </docTitle>\n  <navMap>\n" ++ navMap ++ "  </navMap>\n</ncx>"

/-- One image `<item>` of the package manifest, carrying the id, href and
media-type `addContentOPF` interpolates for it. -/
structure ManifestItem where
  id : String
  href : String
  mediaType : String
deriving DecidableEq

/-- The image items of the package manifest, in map order: the
`for imgID, imgInfo := range imageMap` loop of `addContentOPF`
(epubgenerator.go lines 162–166). -/
def manifestImageItems (m : ImageMap) : List ManifestItem :=
  m.map (fun kv =>
    ⟨kv.1, "images/" ++ kv.1 ++ getImageExtension kv.2.contentType,
      kv.2.contentType⟩)

/-- The `manifestItems` string of `addContentOPF`: the four static items
followed by one line per image item. -/
def manifestItemsString (m : ImageMap) : String :=
  "<item id=\"ncx\" href=\"toc.ncx\" media-type=\"application/x-dtbncx+xml\" properties=\"nav\"/>\n" ++
  "    <item id=\"nav\" href=\"nav.xhtml\" media-type=\"application/xhtml+xml\" properties=\"nav\"/>\n" ++
  "    <item id=\"cover\" href=\"cover.xhtml\" media-type=\"application/xhtml+xml\"/>\n" ++
  "    <item id=\"content\" href=\"content.xhtml\" media-type=\"application/xhtml+xml\"/>" ++
  String.join ((manifestImageItems m).map (fun it =>
    "\n    <item id=\"" ++ it.id ++ "\" href=\"" ++ it.href ++
      "\" media-type=\"" ++ it.mediaType ++ "\"/>"))

/-- Content of `OEBPS/content.opf`, from `addContentOPF`
(epubgenerator.go); `u` and `date` are this run's `uuid.New()` and
`time.Now().Format("2006-01-02")` draws. -/
def contentOPFContent (fb2 : FictionBook) (m : ImageMap) (u date : String) :
    String :=
  let title := if fb2.description.titleInfo.bookTitle = "" then "Untitled"
    else fb2.description.titleInfo.bookTitle
  let authors := fb2.description.titleInfo.author.filterMap (fun a =>
    let nm := buildAuthorName a
    if nm ≠ "" then some nm else none)
  let authorStr := strJoin ", " authors
  let authorStr := if authorStr = "" then "Unknown" else authorStr
  let lang := if fb2.description.titleInfo.lang = "" then "en"
    else fb2.description.titleInfo.lang
  let uuid := "urn:uuid:" ++ u
  let spine := "<itemref idref=\"cover\"/>\n    <itemref idref=\"content\"/>"
  "<?xml version=\"1.0\" encoding=\"UTF-8\"?>\n" ++
  "<package xmlns=\"http://www.idpf.org/2007/opf\" version=\"3.0\" unique-identifier=\"bookid\">\n" ++
  "  <metadata xmlns:dc=\"http://purl.org/dc/elements/1.1/\">\n" ++
  "    <dc:title>" ++ htmlEscapeString title ++ "</dc:title>\n" ++
  "    <dc:creator>" ++ htmlEscapeString authorStr ++ "</dc:creator>\n" ++
  "    <dc:language>" ++ lang ++ "</dc:language>\n" ++
  "    <dc:identifier id=\"bookid\">" ++ uuid ++ "</dc:identifier>\n" ++
  "    <meta property=\"dcterms:modified\">" ++ date ++ "</meta>\n" ++
  "  </metadata>\n  <manifest>\n    " ++ manifestItemsString m ++
  "\n  </manifest>\n  <spine toc=\"ncx\">\n    " ++ spine ++
  "\n  </spine>\n</package>"

/-- Content of `META-INF/container.xml`, from `addContainer`. -/
def containerContent : String :=
  "<?xml version=\"1.0\" encoding=\"UTF-8\"?>\n" ++
  "<container version=\"1.0\" xmlns=\"urn:oasis:names:tc:opendocument:xmlns:container\">\n" ++
  "  <rootfiles>\n    <rootfile full-path=\"OEBPS/content.opf\" media-type=\"application/oebps-package+xml\"/>\n" ++
  "  </rootfiles>\n</container>"

/-- Content of `OEBPS/cover.xhtml`, from `addCoverPage` (CSS braces written
with \x7b/\x7d escapes). -/
def coverContent (fb2 : FictionBook) : String :=
  let title := if fb2.description.titleInfo.bookTitle = "" then "Untitled"
    else fb2.description.titleInfo.bookTitle
  let authors := fb2.description.titleInfo.author.filterMap (fun a =>
    let nm := buildAuthorName a
    if nm ≠ "" then some nm else none)
  let authorStr := strJoin ", " authors
  let authorStr := if authorStr = "" then "Unknown" else authorStr
  "<?xml version=\"1.0\" encoding=\"UTF-8\"?>\n<!DOCTYPE html>\n" ++
  "<html xmlns=\"http://www.w3.org/1999/xhtml\" xmlns:epub=\"http://www.idpf.org/2007/ops\">\n" ++
  "<head>\n  <title>" ++ htmlEscapeString title ++ "</title>\n" ++
  "  <style type=\"text/css\">\n" ++
  "    body \x7b text-align: center; padding: 2em; font-family: serif; \x7d\n" ++
  "    h1 \x7b margin-top: 3em; \x7d\n" ++
  "    h2 \x7b margin-top: 2em; color: #666; \x7d\n" ++
  "  </style>\n</head>\n<body>\n  <h1>" ++ htmlEscapeString title ++
  "</h1>\n  <h2>" ++ htmlEscapeString authorStr ++ "</h2>\n</body>\n</html>"

/-- Content of `OEBPS/nav.xhtml`, from `addNavXHTML` (the nav document
writer; its local `title` variable is computed but not interpolated). -/
def navXHTMLContent (fb2 : FictionBook) : String :=
  let tocEntries := buildTOC fb2
  let navList := "    <li><a href=\"cover.xhtml\">Cover</a></li>\n" ++
    "    <li><a href=\"content.xhtml\">Content</a></li>\n" ++
    writeNavEntryList tocEntries 0
  "<?xml version=\"1.0\" encoding=\"UTF-8\"?>\n<!DOCTYPE html>\n" ++
  "<html xmlns=\"http://www.w3.org/1999/xhtml\" xmlns:epub=\"http://www.idpf.org/2007/ops\">\n" ++
  "<head>\n  <title>Table of Contents</title>\n" ++
  "  <style type=\"text/css\">\n" ++
  "    nav \x7b font-family: serif; \x7d\n" ++
  "    ol \x7b list-style-type: none; padding-left: 1em; \x7d\n" ++
  "    li \x7b margin: 0.5em 0; \x7d\n" ++
  "    a \x7b text-decoration: none; color: inherit; \x7d\n" ++
  "    a:hover \x7b text-decoration: underline; \x7d\n" ++
  "  </style>\n</head>\n<body>\n" ++
  "  <nav epub:type=\"toc\" id=\"toc\">\n    <h1>Table of Contents</h1>\n" ++
  "    <ol>\n" ++ navList ++ "    </ol>\n  </nav>\n</body>\n</html>"

/-- Content of `OEBPS/content.xhtml`, from `addMainContent`: fixed shell,
body title paragraphs as `<h1>`, then all top-level sections at depth 0 with
empty parent id. -/
def mainContentContent (fb2 : FictionBook) (m : ImageMap) : String :=
  "<?xml version=\"1.0\" encoding=\"UTF-8\"?>\n<!DOCTYPE html>\n" ++
  "<html xmlns=\"http://www.w3.org/1999/xhtml\" xmlns:epub=\"http://www.idpf.org/2007/ops\">\n" ++
  "<head>\n  <title>Content</title>\n  <style type=\"text/css\">\n" ++
  "    body \x7b font-family: serif; padding: 1em; line-height: 1.6; \x7d\n" ++
  "    h1, h2, h3 \x7b margin-top: 1.5em; \x7d\n" ++
  "    p \x7b margin: 1em 0; text-align: justify; \x7d\n" ++
  "    .empty-line \x7b height: 1em; \x7d\n" ++
  "    strong \x7b font-weight: bold; \x7d\n" ++
  "    em \x7b font-style: italic; \x7d\n" ++
  "  </style>\n</head>\n<body>\n" ++
  String.join (fb2.body.title.paragraph.map (fun p =>
    "<h1>" ++ processParagraph p (some m) ++ "</h1>\n")) ++
  sectionChildrenLoop fb2.body.sections 0 0 "" m ++
  "</body>\n</html>"

/-- Compression method of a ZIP entry: `zip.Store` for the mimetype header,
`zip.Deflate` (the `zip.Writer.Create` default) everywhere else. -/
inductive ZipMethod where
  | store
  | deflate
deriving DecidableEq

/-- Payload of a ZIP entry: text for the XML/XHTML parts, raw bytes for
images. -/
inductive EntryData where
  | text (s : String)
  | bin (b : List Nat)
deriving DecidableEq

/-- One ZIP archive entry, in physical write order within the archive. -/
structure ZipEntry where
  name : String
  method : ZipMethod
  data : EntryData
deriving DecidableEq

/-- The image entries written by `addBinaryResources` (epubgenerator.go), in
map order: `OEBPS/images/<id><ext>` with the decoded bytes. -/
def binaryResourceEntries (m : ImageMap) : List ZipEntry :=
  m.map (fun kv =>
    ⟨"OEBPS/images/" ++ kv.1 ++ getImageExtension kv.2.contentType,
      .deflate, .bin kv.2.data⟩)

/-- Embedding of `GenerateEPUB` (epubgenerator.go) on its success path: the
archive entries in write order.  `uuidOPF` and `uuidNCX` are the two
independent `uuid.New()` draws (one in `addContentOPF`, one in `addTOCNCX`)
and `date` is the `time.Now()` date; all three are per-run nondeterministic
inputs, passed explicitly.  Filesystem failures abort the Go function and
are outside this pure model. -/
def generateEPUB (fb2 : FictionBook) (uuidOPF uuidNCX date : String) :
    List ZipEntry :=
  let imageMap := collectImages fb2
  ⟨"mimetype", .store, .text "application/epub+zip"⟩ ::
  ⟨"META-INF/container.xml", .deflate, .text containerContent⟩ ::
  ⟨"OEBPS/content.opf", .deflate,
    .text (contentOPFContent fb2 imageMap uuidOPF date)⟩ ::
  ⟨"OEBPS/toc.ncx", .deflate, .text (tocNCXContent fb2 uuidNCX)⟩ ::
  ⟨"OEBPS/nav.xhtml", .deflate, .text (navXHTMLContent fb2)⟩ ::
  ⟨"OEBPS/cover.xhtml", .deflate, .text (coverContent fb2)⟩ ::
  ⟨"OEBPS/content.xhtml", .deflate,
    .text (mainContentContent fb2 imageMap)⟩ ::
  binaryResourceEntries imageMap

/-! The parser, from fb2parser.go.  `ParseFB2FromReader` delegates the
structural work to Go `encoding/xml`: the decoder reads tokens, skipping
everything before the first start element, unmarshals that element, and
reports `io.EOF` when the stream is exhausted first — on a zero-byte input
there is no token at all.  The token stream is embedded at token
granularity, with the unmarshalled document attached to the start-element
token (element unmarshalling itself is outside the claims' scope). -/

/-- Embedding of the `decoder.CharsetReader` closure installed by
`ParseFB2` and `ParseFB2FromReader` (fb2parser.go): whatever charset the
document declares, the raw byte stream is returned unchanged and no error
is raised. -/
def charsetReader (_cs : String) (input : List Nat) :
    Except String (List Nat) :=
  Except.ok input

/-- One top-level token of the XML stream seen by `encoding/xml`. -/
inductive XMLToken where
  | procInst
  | directive
  | comment
  | charData
  | startElement (doc : FictionBook)

/-- The `Decoder.Decode` loop of Go `encoding/xml`: skip tokens until the
first start element and unmarshal it; an exhausted stream is `io.EOF`. -/
def decodeTokens : List XMLToken → Except String FictionBook
  | [] => Except.error "EOF"
  | XMLToken.startElement doc :: _ => Except.ok doc
  | _ :: rest => decodeTokens rest

/-- Embedding of `ParseFB2FromReader` (fb2parser.go), over the token stream
of the input: a decode failure is wrapped as a parse error ("failed to
parse FB2 XML: %w").  A zero-byte input stream tokenizes to `[]`. -/
def ParseFB2FromReader (tokens : List XMLToken) :
    Except String FictionBook :=
  match decodeTokens tokens with
  | Except.ok doc => Except.ok doc
  | Except.error e => Except.error ("failed to parse FB2 XML: " ++ e)

/-! Specification-side definitions, used to state claims (never to define
the program). -/

/-- Modelled from the spec: the charset-normalizing pass is required to
convert the declared encoding, i.e. to produce UTF-8 bytes for the XML
decoder.  This validator recognizes well-formed UTF-8 (RFC 3629: no
overlong forms, no surrogates, nothing above U+10FFFF); it is used to show
the code's pass-through does not convert. -/
def isValidUTF8 : List Nat → Bool
  | [] => true
  | b :: rest =>
    if b < 0x80 then isValidUTF8 rest
    else if 0xC2 ≤ b ∧ b ≤ 0xDF then
      match rest with
      | c1 :: r =>
        decide (0x80 ≤ c1) && decide (c1 ≤ 0xBF) && isValidUTF8 r
      | [] => false
    else if b = 0xE0 then
      match rest with
      | c1 :: c2 :: r =>
        decide (0xA0 ≤ c1) && decide (c1 ≤ 0xBF) &&
        (decide (0x80 ≤ c2) && decide (c2 ≤ 0xBF)) && isValidUTF8 r
      | _ => false
    else if (0xE1 ≤ b ∧ b ≤ 0xEC) ∨ (0xEE ≤ b ∧ b ≤ 0xEF) then
      match rest with
      | c1 :: c2 :: r =>
        decide (0x80 ≤ c1) && decide (c1 ≤ 0xBF) &&
        (decide (0x80 ≤ c2) && decide (c2 ≤ 0xBF)) && isValidUTF8 r
      | _ => false
    else if b = 0xED then
      match rest with
      | c1 :: c2 :: r =>
        decide (0x80 ≤ c1) && decide (c1 ≤ 0x9F) &&
        (decide (0x80 ≤ c2) && decide (c2 ≤ 0xBF)) && isValidUTF8 r
      | _ => false
    else if b = 0xF0 then
      match rest with
      | c1 :: c2 :: c3 :: r =>
        decide (0x90 ≤ c1) && decide (c1 ≤ 0xBF) &&
        (decide (0x80 ≤ c2) && decide (c2 ≤ 0xBF)) &&
        (decide (0x80 ≤ c3) && decide (c3 ≤ 0xBF)) && isValidUTF8 r
      | _ => false
    else if 0xF1 ≤ b ∧ b ≤ 0xF3 then
      match rest with
      | c1 :: c2 :: c3 :: r =>
        decide (0x80 ≤ c1) && decide (c1 ≤ 0xBF) &&
        (decide (0x80 ≤ c2) && decide (c2 ≤ 0xBF)) &&
        (decide (0x80 ≤ c3) && decide (c3 ≤ 0xBF)) && isValidUTF8 r
      | _ => false
    else if b = 0xF4 then
      match rest with
      | c1 :: c2 :: c3 :: r =>
        decide (0x80 ≤ c1) && decide (c1 ≤ 0x8F) &&
        (decide (0x80 ≤ c2) && decide (c2 ≤ 0xBF)) &&
        (decide (0x80 ≤ c3) && decide (c3 ≤ 0xBF)) && isValidUTF8 r
      | _ => false
    else false

/-- The id scheme the spec states for a section at tree path
`(i, j, k, …)`: `section-<i>` with `-sub-<index>` appended per nesting
level. -/
def schemeID (i : Nat) (rest : List Nat) : String :=
  rest.foldl (fun acc j => acc ++ "-sub-" ++ natDec j)
    ("section-" ++ natDec i)

/-- The section id `processSectionWithID` threads to the section at a given
index path: `goSectionID` folded from the empty parent id of the top-level
call in `addMainContent`. -/
def contentIDAt (p : List Nat) : String :=
  p.foldl (fun parentID idx => goSectionID parentID idx) ""

/-- The base id `buildTOC`/`buildTOCFromSection` assign to the TOC entry of
the section at a given index path: `section-<i>` at top level
(epubgenerator.go line 276), `-sub-<i>` appended per level (lines 290 and
320). -/
def tocIDAt : List Nat → String
  | [] => ""
  | i :: rest =>
    rest.foldl (fun baseID j => baseID ++ "-sub-" ++ natDec j)
      ("section-" ++ natDec i)

/-- The `content` src `writeTOCEntry` interpolates for an entry
(epubgenerator.go line 346): the raw entry id after `content.xhtml#`. -/
def ncxContentSrc (entryID : String) : String :=
  "content.xhtml#" ++ entryID

/-- The anchor href `writeNavEntry` interpolates for an entry (nav document
writer line 80): the escaped entry id after `content.xhtml#`. -/
def navAnchorHref (entryID : String) : String :=
  "content.xhtml#" ++ htmlEscapeString entryID

/-- Does the section itself carry a (non-empty) title, in the sense of the
TOC builder's test `section.Title != nil && len(section.Title.Paragraph) > 0`? -/
def sectionHasTitle (s : Section) : Bool :=
  match s.title with
  | some t => !t.paragraph.isEmpty
  | none => false

mutual
/-- Does the section or any descendant carry a title? -/
def hasTitledSelfOrDesc : Section → Bool
  | .mk title sections _ _ _ _ =>
    (match title with
     | some t => !t.paragraph.isEmpty
     | none => false) || hasTitledDescList sections

/-- Does any section of the list have a titled self-or-descendant? -/
def hasTitledDescList : List Section → Bool
  | [] => false
  | c :: rest => hasTitledSelfOrDesc c || hasTitledDescList rest
end

mutual
/-- Number of titled nodes of a TOC entry tree (pass-through nodes count
nothing, their children count as usual). -/
def countTitled : TOCEntry → Nat
  | .mk _ t cs => (if t = "" then 0 else 1) + countTitledList cs

/-- Number of titled nodes of a TOC entry forest. -/
def countTitledList : List TOCEntry → Nat
  | [] => 0
  | e :: rest => countTitled e + countTitledList rest
end

mutual
/-- Maximum nesting depth of a TOC entry forest, as the spec words it: 0
for no entries, 1 for a flat list, one more per nesting level. -/
def tocMaxDepth : List TOCEntry → Nat
  | [] => 0
  | e :: rest => max (tocMaxDepthEntry e) (tocMaxDepth rest)

/-- Nesting depth contributed by one entry: itself plus its subtree. -/
def tocMaxDepthEntry : TOCEntry → Nat
  | .mk _ _ cs => 1 + tocMaxDepth cs
end

/-- The navMap of `addTOCNCX` in structured form: cover navPoint with
playOrder 1, content navPoint with playOrder 2, then the section entries
starting at 3. -/
def tocNCXNavPoints (fb2 : FictionBook) : List NavPoint :=
  ⟨"navpoint-1", 1, "Cover", "cover.xhtml"⟩ ::
  ⟨"navpoint-2", 2, "Content", "content.xhtml"⟩ ::
  (writeTOCEntryPointsList (buildTOC fb2) 3).1

/-- The substring relation on strings: `pat` occurs contiguously in `s`. -/
def isSubstr (pat s : String) : Prop :=
  ∃ l r, s = l ++ pat ++ r

/-- Characters that can occur in a generated section id (digits, lowercase
letters, hyphen) — all untouched by `html.EscapeString`. -/
def safeChar (c : Char) : Bool :=
  (decide (48 ≤ c.toNat) && decide (c.toNat ≤ 57)) ||
  (decide (97 ≤ c.toNat) && decide (c.toNat ≤ 122)) ||
  (c.toNat == 45)

/-! Concrete sample documents for witnesses and counterexamples. -/

/-- A paragraph holding plain text only. -/
def plainP (s : String) : Paragraph := ⟨s, [], [], [], []⟩

/-- The zero value of `TitleInfo` (what Go's unmarshaller leaves for an
absent `title-info`). -/
def emptyTitleInfo : TitleInfo := ⟨[], [], "", "", "", ""⟩

/-- The zero value of `Description`. -/
def emptyDescription : Description :=
  ⟨emptyTitleInfo, ⟨"", "", "", "", ""⟩, ⟨[], "", "", "", ""⟩⟩

/-- The zero value of `FictionBook`: default metadata, a body with no
sections, no binaries — what parsing an input with an empty `FictionBook`
element produces. -/
def emptyFictionBook : FictionBook :=
  ⟨emptyDescription, ⟨"", ⟨[]⟩, []⟩, []⟩

/-- A document whose body holds exactly one titled, childless section: its
TOC is one flat level. -/
def flatDoc : FictionBook :=
  ⟨emptyDescription,
   ⟨"", ⟨[]⟩, [Section.mk (some ⟨[plainP "Intro"]⟩) [] [] [] [] 0]⟩, []⟩

/-- A document with one embedded png resource (base64 `AA==`, decoding to
the single byte 0). -/
def sampleImgDoc : FictionBook :=
  ⟨emptyDescription, ⟨"", ⟨[]⟩, []⟩, [⟨"img1", "image/png", "AA=="⟩]⟩

/-- An untitled section with one paragraph and no subsections. -/
def sampleUntitledSection : Section :=
  Section.mk none [] [plainP "Hello"] [] [] 0

/-! Helper lemmas. -/

theorem strAppend_ne_empty_left (a b : String) (h : a ≠ "") :
    a ++ b ≠ "" := by
  intro hc
  apply h
  have hd := congrArg String.data hc
  simp only [String.data_append] at hd
  exact String.ext (List.append_eq_nil.mp hd).1

theorem range'_one_append (s m n : Nat) :
    List.range' s m ++ List.range' (s + m) n = List.range' s (m + n) := by
  have h := List.range'_append s m n 1
  simp only [Nat.one_mul, Nat.add_comm n m] at h
  exact h

theorem digitCh_bounds (k : Nat) :
    48 ≤ (digitCh k).toNat ∧ (digitCh k).toNat ≤ 57 := by
  unfold digitCh
  repeat' split
  all_goals decide

theorem natDecAux_digits : ∀ (fuel n : Nat) (acc : List Char),
    (∀ c ∈ acc, 48 ≤ c.toNat ∧ c.toNat ≤ 57) →
    ∀ c ∈ natDecAux fuel n acc, 48 ≤ c.toNat ∧ c.toNat ≤ 57
  | 0, n, acc, h => by
    intro c hc
    exact h c hc
  | fuel + 1, n, acc, h => by
    simp only [natDecAux]
    split
    · intro c hc
      rcases List.mem_cons.mp hc with rfl | hmem
      · exact digitCh_bounds _
      · exact h c hmem
    · refine natDecAux_digits fuel (n / 10) (digitCh (n % 10) :: acc) ?_
      intro c hc
      rcases List.mem_cons.mp hc with rfl | hmem
      · exact digitCh_bounds _
      · exact h c hmem

theorem natDec_digits (n : Nat) :
    ∀ c ∈ (natDec n).data, 48 ≤ c.toNat ∧ c.toNat ≤ 57 :=
  natDecAux_digits (n + 1) n [] (by intro c hc; cases hc)

theorem escapeChar_id_of_safe (c : Char) (h : safeChar c = true) :
    escapeChar c = String.singleton c := by
  simp only [safeChar, Bool.or_eq_true, Bool.and_eq_true, decide_eq_true_eq,
    beq_iff_eq] at h
  have h38 : c.toNat ≠ 38 := by omega
  have h39 : c.toNat ≠ 39 := by omega
  have h60 : c.toNat ≠ 60 := by omega
  have h62 : c.toNat ≠ 62 := by omega
  have h34 : c.toNat ≠ 34 := by omega
  unfold escapeChar
  rw [if_neg (fun hc => h38 (by rw [hc]; rfl)),
    if_neg h39,
    if_neg (fun hc => h60 (by rw [hc]; rfl)),
    if_neg (fun hc => h62 (by rw [hc]; rfl)),
    if_neg (fun hc => h34 (by rw [hc]; rfl))]

theorem strFoldlAppend (l : List String) :
    ∀ acc : String, l.foldl (· ++ ·) acc = acc ++ l.foldl (· ++ ·) "" := by
  induction l with
  | nil => intro acc; exact (String.append_empty acc).symm
  | cons x xs ih =>
    intro acc
    simp only [List.foldl]
    rw [ih (acc ++ x), ih ("" ++ x), String.empty_append,
      String.append_assoc]

theorem strJoin_cons (s : String) (l : List String) :
    String.join (s :: l) = s ++ String.join l := by
  simp only [String.join, List.foldl]
  rw [strFoldlAppend l ("" ++ s), String.empty_append]

theorem strJoin_map_singleton : ∀ l : List Char,
    String.join (l.map String.singleton) = ⟨l⟩
  | [] => rfl
  | c :: cs => by
    rw [List.map_cons, strJoin_cons, strJoin_map_singleton cs]
    apply String.ext
    simp [String.data_append, String.singleton]

theorem htmlEscape_id (s : String)
    (h : ∀ c ∈ s.data, escapeChar c = String.singleton c) :
    htmlEscapeString s = s := by
  unfold htmlEscapeString
  rw [List.map_congr_left h, strJoin_map_singleton]

theorem safe_append (a b : String)
    (ha : ∀ c ∈ a.data, safeChar c = true)
    (hb : ∀ c ∈ b.data, safeChar c = true) :
    ∀ c ∈ (a ++ b).data, safeChar c = true := by
  intro c hc
  rw [String.data_append] at hc
  rcases List.mem_append.mp hc with h | h
  · exact ha c h
  · exact hb c h

theorem safe_natDec (n : Nat) : ∀ c ∈ (natDec n).data, safeChar c = true := by
  intro c hc
  have h := natDec_digits n c hc
  simp only [safeChar, Bool.or_eq_true, Bool.and_eq_true, decide_eq_true_eq,
    beq_iff_eq]
  omega

theorem schemeID_safe (i : Nat) (rest : List Nat) :
    ∀ c ∈ (schemeID i rest).data, safeChar c = true := by
  unfold schemeID
  have hsec : ∀ c ∈ ("section-" : String).data, safeChar c = true := by decide
  have hsub : ∀ c ∈ ("-sub-" : String).data, safeChar c = true := by decide
  have hgen : ∀ (acc : String), (∀ c ∈ acc.data, safeChar c = true) →
      ∀ c ∈ (rest.foldl (fun a j => a ++ "-sub-" ++ natDec j) acc).data,
        safeChar c = true := by
    induction rest with
    | nil => exact fun acc h => h
    | cons j js ih =>
      intro acc hacc
      exact ih _ (safe_append _ _ (safe_append _ _ hacc hsub) (safe_natDec j))
  exact hgen _ (safe_append _ _ hsec (safe_natDec i))

theorem htmlEscape_schemeID (i : Nat) (rest : List Nat) :
    htmlEscapeString (schemeID i rest) = schemeID i rest :=
  htmlEscape_id _ (fun c hc =>
    escapeChar_id_of_safe c (schemeID_safe i rest c hc))

theorem foldGoSectionID (rest : List Nat) :
    ∀ acc : String, acc ≠ "" →
      rest.foldl goSectionID acc =
        rest.foldl (fun a j => a ++ "-sub-" ++ natDec j) acc := by
  induction rest with
  | nil => intro acc _; rfl
  | cons j js ih =>
    intro acc h
    simp only [List.foldl]
    rw [show goSectionID acc j = acc ++ "-sub-" ++ natDec j from by
      unfold goSectionID; rw [if_pos h]]
    exact ih _ (strAppend_ne_empty_left _ _ (strAppend_ne_empty_left _ _ h))

theorem contentIDAt_eq (i : Nat) (rest : List Nat) :
    contentIDAt (i :: rest) = schemeID i rest := by
  unfold contentIDAt schemeID
  simp only [List.foldl]
  rw [show goSectionID "" i = "section-" ++ natDec i from by
    unfold goSectionID; rw [if_neg (by decide)]]
  exact foldGoSectionID rest _ (strAppend_ne_empty_left _ _ (by decide))

/-! Claim theorems.  Each claim of the spec gets exactly one theorem (plus,
where needed, a counterexample and a witness). -/

/-- C4: for a Section at any tree path `(i, j, k, …)`, the id attribute
value emitted in content.xhtml for its headings, the fragment of the
`content` src emitted in toc.ncx for its TOC entry, and the fragment of the
anchor href emitted in nav.xhtml are byte-identical, all equal to
`section-<i>` with `-sub-<index>` appended per nesting level (the code's
HTML-escaping of the id is the identity on ids of this shape, and the
renderer and both navigation writers thread the same id scheme). -/
theorem section_id_consistency (i : Nat) (rest : List Nat) :
    contentHeadingIDAttr (contentIDAt (i :: rest)) = schemeID i rest ∧
    ncxContentSrc (tocIDAt (i :: rest)) =
      "content.xhtml#" ++ schemeID i rest ∧
    navAnchorHref (tocIDAt (i :: rest)) =
      "content.xhtml#" ++ schemeID i rest := by
  have h1 := contentIDAt_eq i rest
  have h2 : tocIDAt (i :: rest) = schemeID i rest := rfl
  refine ⟨?_, ?_, ?_⟩
  · unfold contentHeadingIDAttr
    rw [h1, htmlEscape_schemeID]
  · unfold ncxContentSrc
    rw [h2]
  · unfold navAnchorHref
    rw [h2, htmlEscape_schemeID]

/-- C1: for every Document, `GenerateEPUB` produces an archive whose
physically first entry is named `mimetype`, is written with the Store
method (no compression), and whose content is exactly the ASCII string
`application/epub+zip`. -/
theorem generateEPUB_first_entry_mimetype (fb2 : FictionBook)
    (u1 u2 d : String) :
    (generateEPUB fb2 u1 u2 d).head? =
      some ⟨"mimetype", ZipMethod.store,
        EntryData.text "application/epub+zip"⟩ := rfl

/-- C2 counterexample: parsing the zero-byte input stream (which tokenizes
to no XML tokens at all) does not return a Document — `encoding/xml` finds
no root element, reports `io.EOF`, and `ParseFB2FromReader` wraps it into a
parse error. -/
theorem parseFB2_empty_input_is_error :
    ParseFB2FromReader [] =
      Except.error "failed to parse FB2 XML: EOF" := rfl

/-- C2 amended: parsing zero-byte input fails with the wrapped io.EOF parse
error; generating an EPUB directly from the zero-valued empty-body Document
still produces the seven fixed archive entries (the eighth entry kind,
images, has no instances for a document without binaries). -/
theorem parseFB2_empty_error_and_epub_entries (u1 u2 d : String) :
    ParseFB2FromReader [] =
      Except.error "failed to parse FB2 XML: EOF" ∧
    (generateEPUB emptyFictionBook u1 u2 d).map ZipEntry.name =
      ["mimetype", "META-INF/container.xml", "OEBPS/content.opf",
       "OEBPS/toc.ncx", "OEBPS/nav.xhtml", "OEBPS/cover.xhtml",
       "OEBPS/content.xhtml"] :=
  ⟨rfl, rfl⟩

/-- C3 counterexample: for a document whose self-declaration names
`windows-1251` and whose payload holds the valid windows-1251 byte 0xE0
(CYRILLIC SMALL LETTER A), the parser's charset pass returns the byte
stream unchanged — and the result is not even well-formed UTF-8, so the
declared encoding was not converted (honoring it would produce the UTF-8
encoding of the decoded text). -/
theorem charsetReader_ignores_declared_encoding :
    charsetReader "windows-1251" [0xE0] = Except.ok [0xE0] ∧
    isValidUTF8 [0xE0] = false :=
  ⟨rfl, rfl⟩

/-- C3 amended: the parser installs a `CharsetReader` before structural XML
decoding which accepts any declared character encoding without error but
returns the byte stream unchanged — no conversion is performed, so only
input that is already UTF-8 is decoded correctly, and an absent or
unrecognized declaration likewise leaves the bytes untouched. -/
theorem charsetReader_passthrough (cs : String) (input : List Nat) :
    charsetReader cs input = Except.ok input := rfl

set_option maxRecDepth 40000 in
/-- C9 counterexample: two runs on the same input bytes with different
`uuid.New()` draws in `addContentOPF` produce different archive contents
(the package document embeds the per-run UUID), so the output is not purely
a function of the input bytes. -/
theorem generateEPUB_depends_on_uuid_draw :
    generateEPUB emptyFictionBook "aaaa" "u" "2024-01-01" ≠
      generateEPUB emptyFictionBook "bbbb" "u" "2024-01-01" := by
  decide

/-- C9 amended: the pipeline is deterministic only up to the per-run
`uuid.New()` draws and `time.Now()` date embedded in `content.opf` and
`toc.ncx`: every other archive entry is byte-identical across runs on the
same input, whatever the draws. -/
theorem generateEPUB_deterministic_modulo_uuid_date (fb2 : FictionBook)
    (u1 u2 d u1' u2' d' : String) :
    (generateEPUB fb2 u1 u2 d).filter
      (fun e => !(e.name == "OEBPS/content.opf" ||
                  e.name == "OEBPS/toc.ncx")) =
    (generateEPUB fb2 u1' u2' d').filter
      (fun e => !(e.name == "OEBPS/content.opf" ||
                  e.name == "OEBPS/toc.ncx")) := by
  simp [generateEPUB, List.filter_cons]

mutual
/-- The accumulator fold of `calculateTOCDepth` computes the running
maximum of `maxDepth` and `currentDepth` plus the forest's nesting
depth. -/
theorem calcLoopEq : ∀ (entries : List TOCEntry) (d mx : Nat), d ≤ mx →
    calcTOCDepthLoop entries d mx = Nat.max mx (d + tocMaxDepth entries)
  | [], d, mx, h => by
    simp only [calcTOCDepthLoop, tocMaxDepth, Nat.max_def]
    split <;> omega
  | e :: rest, d, mx, h => by
    simp only [calcTOCDepthLoop, tocMaxDepth]
    rw [calcEntryEq e d]
    rw [calcLoopEq rest d
      (if d + tocMaxDepthEntry e > mx then d + tocMaxDepthEntry e else mx)
      (by split <;> omega)]
    simp only [Nat.max_def]
    repeat' split
    all_goals omega

/-- The per-entry recursion of `calculateTOCDepth` computes `currentDepth`
plus the entry's nesting depth. -/
theorem calcEntryEq : ∀ (e : TOCEntry) (d : Nat),
    calcTOCDepthEntry e d = d + tocMaxDepthEntry e
  | .mk i t cs, d => by
    simp only [calcTOCDepthEntry, tocMaxDepthEntry]
    rw [calcLoopEq cs (d + 1) (d + 1) (Nat.le_refl _)]
    simp only [Nat.max_def]
    split <;> omega
end

/-- C6 counterexample: for a document whose TOC is one flat titled entry,
the value written for `dtb:depth` is 2, while the maximum nesting depth of
the TOCEntry tree with floor 1 — the value the claim promises — is 1. -/
theorem ncx_dtb_depth_flat_is_two :
    ncxDtbDepth flatDoc = 2 ∧
    Nat.max 1 (tocMaxDepth (buildTOC flatDoc)) = 1 :=
  ⟨rfl, rfl⟩

/-- C6 amended: the value written for the NCX `dtb:depth` metadata equals
the maximum nesting depth of the TOCEntry tree floored at 1, plus one (the
code interpolates `maxDepth+1`); in particular a flat or empty TOC yields
`dtb:depth` 2, not 1. -/
theorem ncx_dtb_depth_written (fb2 : FictionBook) :
    ncxDtbDepth fb2 = Nat.max 1 (tocMaxDepth (buildTOC fb2)) + 1 := by
  simp only [ncxDtbDepth, calculateTOCDepth]
  rw [calcLoopEq (buildTOC fb2) 0 0 (Nat.le_refl 0)]
  simp only [Nat.max_def]
  repeat' split
  all_goals omega

/-- C7: the image entries written into the archive and the image items of
the `content.opf` manifest are in one-to-one correspondence (they have the
same length and, pairwise, the archived entry's name is `OEBPS/` plus the
manifest item's href, which itself is `images/` plus the shared id and the
extension chosen for the shared content type) — no orphaned images and no
dangling manifest image entries. -/
theorem images_manifest_archive_correspondence (fb2 : FictionBook) :
    (binaryResourceEntries (collectImages fb2)).length =
      (manifestImageItems (collectImages fb2)).length ∧
    ∀ pr ∈ (manifestImageItems (collectImages fb2)).zip
        (binaryResourceEntries (collectImages fb2)),
      pr.2.name = "OEBPS/" ++ pr.1.href ∧
      pr.1.href = "images/" ++ pr.1.id ++
        getImageExtension pr.1.mediaType := by
  constructor
  · simp [binaryResourceEntries, manifestImageItems]
  · generalize collectImages fb2 = m
    induction m with
    | nil =>
      intro pr hpr
      simp [binaryResourceEntries, manifestImageItems] at hpr
    | cons kv rest ih =>
      intro pr hpr
      simp only [manifestImageItems, binaryResourceEntries, List.map_cons,
        List.zip_cons_cons, List.mem_cons] at hpr
      rcases hpr with rfl | hmem
      · refine ⟨?_, rfl⟩
        show "OEBPS/images/" ++ kv.1 ++ getImageExtension kv.2.contentType =
          "OEBPS/" ++ ("images/" ++ kv.1 ++
            getImageExtension kv.2.contentType)
        rw [← String.append_assoc, ← String.append_assoc,
          show ("OEBPS/" : String) ++ "images/" = "OEBPS/images/" by decide]
      · exact ih pr hmem

/-- Witness for C7 at a document with one embedded png image. -/
theorem images_manifest_archive_correspondence_witness :
    (binaryResourceEntries (collectImages sampleImgDoc)).length =
      (manifestImageItems (collectImages sampleImgDoc)).length ∧
    ("OEBPS/images/img1.png" = "OEBPS/" ++ "images/img1.png" ∧
     "images/img1.png" = "images/" ++ "img1" ++
       getImageExtension "image/png") :=
  ⟨(images_manifest_archive_correspondence sampleImgDoc).1,
   (images_manifest_archive_correspondence sampleImgDoc).2
     (⟨"img1", "images/img1.png", "image/png"⟩,
      ⟨"OEBPS/images/img1.png", ZipMethod.deflate, EntryData.bin [0]⟩)
     (by decide)⟩

mutual
/-- A `writeTOCEntry` call that starts at counter `k` ends at `k` plus the
number of titled nodes of the entry's subtree, and the playOrders it emits,
in emission order, are exactly the consecutive integers starting at `k`. -/
theorem writeTOCEntryPoints_spec : ∀ (e : TOCEntry) (k : Nat),
    (writeTOCEntryPoints e k).2 = k + countTitled e ∧
    (writeTOCEntryPoints e k).1.map NavPoint.playOrder =
      List.range' k (countTitled e)
  | .mk eid title children, k => by
    simp only [writeTOCEntryPoints, countTitled]
    by_cases h1 : title = "" ∧ children.isEmpty
    · rw [if_pos h1]
      have hc : countTitledList children = 0 := by
        rcases h1 with ⟨_, hch⟩
        cases children with
        | nil => simp [countTitledList]
        | cons a l => simp [List.isEmpty] at hch
      simp [h1.1, hc, List.range']
    · rw [if_neg h1]
      by_cases h2 : title ≠ ""
      · rw [if_pos h2]
        have hl := writeTOCEntryPointsList_spec children (k + 1)
        constructor
        · simp only [hl.1]
          simp [h2]
          omega
        · simp only [List.map_cons, hl.2]
          rw [show (if title = "" then 0 else 1) + countTitledList children
              = countTitledList children + 1 by simp [h2]; omega]
          rw [List.range'_succ]
      · rw [if_neg h2]
        have ht : title = "" := by
          by_contra hx
          exact h2 hx
        have hl := writeTOCEntryPointsList_spec children k
        simp [ht, hl.1, hl.2]

/-- List version of `writeTOCEntryPoints_spec`, for the child and top-level
entry loops. -/
theorem writeTOCEntryPointsList_spec : ∀ (es : List TOCEntry) (k : Nat),
    (writeTOCEntryPointsList es k).2 = k + countTitledList es ∧
    (writeTOCEntryPointsList es k).1.map NavPoint.playOrder =
      List.range' k (countTitledList es)
  | [], k => by simp [writeTOCEntryPointsList, countTitledList, List.range']
  | e :: rest, k => by
    simp only [writeTOCEntryPointsList, countTitledList]
    have h1 := writeTOCEntryPoints_spec e k
    have h2 := writeTOCEntryPointsList_spec rest (k + countTitled e)
    constructor
    · rw [h1.1, h2.1]
      omega
    · simp only [List.map_append, h1.2, h1.1, h2.2]
      rw [range'_one_append]
end

/-- C5: in the generated toc.ncx navMap, the cover navPoint carries
playOrder 1, the main content navPoint playOrder 2, and the playOrders of
all emitted navPoints, in document order, are exactly the consecutive
integers 1, 2, 3, … — one per titled TOC node, with title-less
pass-through nodes consuming no playOrder value while their children are
still emitted (the navPoint count is 2 plus the number of titled nodes of
the whole TOC tree, children of pass-through nodes included). -/
theorem ncx_playorder_preorder (fb2 : FictionBook) :
    (tocNCXNavPoints fb2).map NavPoint.playOrder =
      List.range' 1 (2 + countTitledList (buildTOC fb2)) ∧
    (tocNCXNavPoints fb2).length =
      2 + countTitledList (buildTOC fb2) := by
  have h := writeTOCEntryPointsList_spec (buildTOC fb2) 3
  have hlen := congrArg List.length h.2
  simp only [List.length_map, List.length_range'] at hlen
  constructor
  · simp only [tocNCXNavPoints, List.map_cons, h.2]
    rw [show 2 + countTitledList (buildTOC fb2)
        = countTitledList (buildTOC fb2) + 1 + 1 by omega]
    rw [List.range'_succ, List.range'_succ]
  · simp only [tocNCXNavPoints, List.length_cons, hlen]
    omega

mutual
/-- A section with no (non-empty) title anywhere in its subtree produces no
TOC entry. -/
theorem buildTOC_none_of_untitled : ∀ (s : Section) (baseID : String),
    hasTitledSelfOrDesc s = false → buildTOCFromSection s baseID = none
  | .mk none sections ps pos cs el, baseID, h => by
    simp only [hasTitledSelfOrDesc, Bool.or_eq_false_iff] at h
    simp only [buildTOCFromSection]
    rw [buildTOCChildren_nil_of_untitled sections baseID 0 h.2]
    rfl
  | .mk (some t) sections ps pos cs el, baseID, h => by
    simp only [hasTitledSelfOrDesc, Bool.or_eq_false_iff] at h
    obtain ⟨h1, h2⟩ := h
    have hp : t.paragraph.isEmpty = true := by
      cases hep : t.paragraph.isEmpty
      · rw [hep] at h1
        cases h1
      · rfl
    simp only [buildTOCFromSection]
    rw [if_pos hp, buildTOCChildren_nil_of_untitled sections baseID 0 h2]
    rfl

/-- List version of `buildTOC_none_of_untitled`. -/
theorem buildTOCChildren_nil_of_untitled : ∀ (ss : List Section)
    (baseID : String) (i : Nat), hasTitledDescList ss = false →
    buildTOCChildren ss baseID i = []
  | [], _, _, _ => rfl
  | c :: rest, baseID, i, h => by
    simp only [hasTitledDescList, Bool.or_eq_false_iff] at h
    simp only [buildTOCChildren]
    rw [buildTOC_none_of_untitled c _ h.1,
      buildTOCChildren_nil_of_untitled rest baseID (i + 1) h.2]
end

theorem isSubstr_extendRight (pat a b : String) (h : isSubstr pat a) :
    isSubstr pat (a ++ b) := by
  obtain ⟨l, r, rfl⟩ := h
  exact ⟨l, r ++ b, by simp [String.append_assoc]⟩

theorem isSubstr_extendLeft (pat a b : String) (h : isSubstr pat b) :
    isSubstr pat (a ++ b) := by
  obtain ⟨l, r, rfl⟩ := h
  exact ⟨a ++ l, r, by simp [String.append_assoc]⟩

theorem strJoin_map_infix {α : Type} (f : α → String) :
    ∀ (xs : List α) (x : α), x ∈ xs →
      ∃ l r, String.join (xs.map f) = l ++ (f x ++ r)
  | [], x, hx => absurd hx (List.not_mem_nil x)
  | y :: ys, x, hx => by
    rw [List.map_cons, strJoin_cons]
    rcases List.mem_cons.mp hx with rfl | hmem
    · exact ⟨"", String.join (ys.map f), by rw [String.empty_append]⟩
    · obtain ⟨l, r, hlr⟩ := strJoin_map_infix f ys x hmem
      exact ⟨f y ++ l, r, by rw [hlr, String.append_assoc]⟩

theorem isSubstr_join_map {α : Type} (f : α → String) (xs : List α) (x : α)
    (hx : x ∈ xs) : isSubstr (f x) (String.join (xs.map f)) := by
  obtain ⟨l, r, h⟩ := strJoin_map_infix f xs x hx
  exact ⟨l, r, by rw [h, String.append_assoc]⟩

/-- C8: a Section with no title and no titled descendant produces zero
TOCEntry nodes, while its paragraphs (those whose rendering is non-empty),
poems, citations and empty-line markers are still rendered into the
section's content.xhtml output at their position in reading order. -/
theorem untitled_section_skipped_but_rendered
    (s : Section) (baseID : String) (depth idx : Nat) (parentID : String)
    (m : ImageMap) (h : hasTitledSelfOrDesc s = false) :
    buildTOCFromSection s baseID = none ∧
    (∀ p ∈ s.paragraph, processParagraph p (some m) ≠ "" →
      isSubstr ("<p>" ++ processParagraph p (some m) ++ "</p>\n")
        (processSectionWithID s depth idx parentID m)) ∧
    (∀ poem ∈ s.poem, isSubstr (processPoem poem)
      (processSectionWithID s depth idx parentID m)) ∧
    (∀ cite ∈ s.cite, isSubstr (processCite cite m)
      (processSectionWithID s depth idx parentID m)) ∧
    (0 < s.emptyLine → isSubstr "<div class=\"empty-line\"></div>\n"
      (processSectionWithID s depth idx parentID m)) := by
  obtain ⟨title, sections, ps, poems, cites, el⟩ := s
  refine ⟨buildTOC_none_of_untitled _ baseID h, ?_, ?_, ?_, ?_⟩
  · intro p hp htext
    simp only [Section.paragraph] at hp
    simp only [processSectionWithID]
    apply isSubstr_extendRight
    apply isSubstr_extendRight
    apply isSubstr_extendRight
    apply isSubstr_extendRight
    apply isSubstr_extendLeft
    have base := isSubstr_join_map (fun p =>
      if processParagraph p (some m) ≠ "" then
        "<p>" ++ processParagraph p (some m) ++ "</p>\n"
      else "") ps p hp
    simp only at base
    rw [if_pos htext] at base
    exact base
  · intro poem hpoem
    simp only [Section.poem] at hpoem
    simp only [processSectionWithID]
    apply isSubstr_extendRight
    apply isSubstr_extendLeft
    exact isSubstr_join_map processPoem poems poem hpoem
  · intro cite hcite
    simp only [Section.cite] at hcite
    simp only [processSectionWithID]
    apply isSubstr_extendLeft
    exact isSubstr_join_map (fun c => processCite c m) cites cite hcite
  · intro hel
    simp only [Section.emptyLine] at hel
    simp only [processSectionWithID]
    apply isSubstr_extendRight
    apply isSubstr_extendRight
    apply isSubstr_extendRight
    apply isSubstr_extendLeft
    obtain ⟨k, rfl⟩ : ∃ k, el = k + 1 := ⟨el - 1, by omega⟩
    exact ⟨"", strRepeat "<div class=\"empty-line\"></div>\n" k,
      by simp [strRepeat, String.empty_append]⟩

/-- Witness for C8 at an untitled leaf section with one paragraph. -/
theorem untitled_section_skipped_but_rendered_witness :
    buildTOCFromSection sampleUntitledSection "section-0" = none ∧
    isSubstr ("<p>" ++ processParagraph (plainP "Hello") (some []) ++
        "</p>\n")
      (processSectionWithID sampleUntitledSection 0 0 "" []) :=
  ⟨(untitled_section_skipped_but_rendered sampleUntitledSection "section-0"
      0 0 "" [] (by decide)).1,
   (untitled_section_skipped_but_rendered sampleUntitledSection "section-0"
      0 0 "" [] (by decide)).2.1
     (plainP "Hello") (List.mem_singleton_self _) (by decide)⟩

/-- C10 counterexample: a Link whose display text and href are both empty
renders as an anchor whose visible text is empty (`<a href=""></a>`), so
the renderer does emit an anchor with empty display text. -/
theorem processLink_empty_link_empty_anchor :
    processLink ⟨"", "", ""⟩ none = "<a href=\"\"></a>" := rfl

/-- C10 amended: for every Link whose display text is the empty string the
renderer emits `<a href="H">H</a>` where `H` is the escaped href; the
emitted display text is hence empty exactly when the href itself is
empty. -/
theorem processLink_empty_text_uses_href (l : Link) (h : l.text = "") :
    processLink l none =
      "<a href=\"" ++ htmlEscapeString l.href ++ "\">" ++
        htmlEscapeString l.href ++ "</a>" := by
  obtain ⟨href, ty, text⟩ := l
  simp only [Link.text] at h
  subst h
  rfl

/-- Witness for the C10 amended theorem at a concrete text-less link. -/
theorem processLink_empty_text_uses_href_witness :
    processLink ⟨"#n1", "", ""⟩ none =
      "<a href=\"" ++ htmlEscapeString "#n1" ++ "\">" ++
        htmlEscapeString "#n1" ++ "</a>" :=
  processLink_empty_text_uses_href ⟨"#n1", "", ""⟩ rfl

end Fb2Epub

